import Mathlib

/-!
# azure-devops-webhook-handler: a shallow embedding of `src/main.go`

The handler `HandleEvent` and the helper `runAzureDevopsPipeline` are embedded as
pure functions that return an `Execution`: the ordered list of observable effects
(remote calls with their results, `WriteHeader` calls) together with the way the
Go function stopped (normal return, run-time panic, or `log.Fatalf`).

Everything the source obtains from outside the repository is a field of `World`:
the process environment, `encoding/json` and the Azure DevOps pipelines client.
-/

namespace AzureDevopsWebhookHandler

/-! ## Data model (`src/main.go`, lines 16-57) -/

/-- Go struct `Repository` (lines 54-57). -/
structure Repository where
  DefaultBranch : String
  FullName : String

/-- Go struct `Base` (lines 42-44). -/
structure Base where
  Ref : String

/-- Go struct `Comment` (lines 46-48). -/
structure Comment where
  Body : String

/-- Go struct `Issue` (lines 50-52). -/
structure Issue where
  Number : Int

/-- Go struct `PullRequest` (lines 30-34). -/
structure PullRequest where
  Number : Int
  Merged : Bool
  Base : Base

/-- Go struct `PullRequestEvent` (lines 23-28). -/
structure PullRequestEvent where
  Action : String
  Number : Int
  PullRequest : PullRequest
  Repository : Repository

/-- Go struct `IssueCommentEvent` (lines 36-40). -/
structure IssueCommentEvent where
  Comment : Comment
  Issue : Issue
  Repository : Repository

/-- The composite literal `PullRequestEvent{}`: every field has its zero value. -/
def PullRequestEvent.zero : PullRequestEvent :=
  { Action := "", Number := 0,
    PullRequest := { Number := 0, Merged := false, Base := { Ref := "" } },
    Repository := { DefaultBranch := "", FullName := "" } }

/-- The composite literal `IssueCommentEvent{}`: every field has its zero value. -/
def IssueCommentEvent.zero : IssueCommentEvent :=
  { Comment := { Body := "" }, Issue := { Number := 0 },
    Repository := { DefaultBranch := "", FullName := "" } }

/-- The values `encoding/json` stores when it decodes into an `interface{}`:
`nil`, `bool`, `float64` (kept here as the text of the number), `string`,
`[]interface{}` and `map[string]interface{}`. -/
inductive JsonValue where
  | null
  | bool (b : Bool)
  | number (text : String)
  | string (s : String)
  | array (items : List JsonValue)
  | object (members : List (String × JsonValue))

/-- The dynamic values the variable `event interface{}` of `HandleEvent` can hold:
the nil interface, a struct value of one of the two event types (never a pointer
to one), or a generic decoded JSON value. -/
inductive Any where
  | nil
  | IssueCommentEvent (v : IssueCommentEvent)
  | PullRequestEvent (v : PullRequestEvent)
  | generic (v : JsonValue)

/-- Storing a decoded JSON value in an `interface{}`: JSON `null` is the nil interface. -/
def Any.ofJson : JsonValue → Any
  | .null => .nil
  | v => .generic v

/-- Go struct `GithubContext` (lines 16-21). -/
structure GithubContext where
  Event : Any
  EventName : String
  Repository : String
  RepositoryOwner : String

/-! ## Types of the Azure DevOps client library used by the source -/

/-- Result of `azuredevops.NewPatConnection` (line 115). -/
structure Connection where
  organizationURL : String
  personalAccessToken : String

/-- The fields of `pipelines.Pipeline` that the source reads, both pointers
(`*pipeline.Name` at line 132, `pipeline.Id` assigned to a `*int` at line 133). -/
structure Pipeline where
  Id : Option Int
  Name : Option String

/-- The value `ListPipelines` returns; line 131 ranges over its `Value`. -/
structure ListPipelinesResponseValue where
  Value : List Pipeline

/-- The argument of `ListPipelines`; the source sets `Project` only (lines 121-123). -/
structure ListPipelinesArgs where
  Project : Option String

/-- Library struct `pipelines.Variable` (lines 153-164). -/
structure Variable where
  IsSecret : Option Bool
  Value : Option String

/-- Library struct `pipelines.RunPipelineParameters`; `Variables` is a Go map,
kept as the key/value pairs of the map literal of lines 152-165. -/
structure RunPipelineParameters where
  Variables : List (String × Variable)

/-- The argument of `RunPipeline` as the source fills it (lines 148-167). -/
structure RunPipelineArgs where
  Project : Option String
  PipelineId : Option Int
  RunParameters : Option RunPipelineParameters

/-- The value `RunPipeline` returns; line 174 dereferences its `Id`. -/
structure Run where
  Id : Option Int

/-- Everything `src/main.go` obtains from outside the repository. -/
structure World where
  /-- Process environment, `os.Getenv`. -/
  Getenv : String → String
  /-- What `json.Unmarshal` makes of a body when the target is an `interface{}`:
  a syntax error, or the generic value. -/
  jsonDecode : List UInt8 → Except String JsonValue
  /-- How `json.Marshal` encodes a Go string (quotes and escapes). -/
  jsonEncodeString : String → String
  /-- How `json.Marshal` encodes the value held by an `interface{}`. -/
  jsonEncodeAny : Any → Except String String
  /-- Remote call `pipelineClient.ListPipelines`. -/
  ListPipelines : Connection → ListPipelinesArgs → Except String ListPipelinesResponseValue
  /-- Remote call `pipelineClient.RunPipeline`. -/
  RunPipeline : Connection → RunPipelineArgs → Except String Run

/-- The inbound request as `HandleEvent` observes it. -/
structure Request where
  /-- The header map: the value stored under a key, if any. -/
  Header : String → Option String
  /-- Outcome of `io.ReadAll(req.Body)`. -/
  Body : Except String (List UInt8)

/-- Go `req.Header.Get(key)`: the empty string when the header is absent. -/
def Request.HeaderGet (req : Request) (key : String) : String :=
  (req.Header key).getD ""

/-! ## Executions -/

/-- Run-time panics the source can raise. -/
inductive Panic where
  /-- A failed single-value type assertion `event.(T)` (lines 91, 93). -/
  | interfaceConversion
  /-- An index expression out of range (line 96). -/
  | indexOutOfRange (index length : Nat)
  /-- Dereference of a nil pointer (lines 132, 174). -/
  | nilDereference

/-- The `log.Fatalf` calls of `runAzureDevopsPipeline`; each ends the process. -/
inductive Fatal where
  | listPipelinesFailed (err : String)
  | pipelineNotFound (name : String)
  | marshalFailed (err : String)
  | runPipelineFailed (err : String)

/-- How a Go function stopped. -/
inductive Exit where
  | returned
  | panicked (p : Panic)
  | fatal (f : Fatal)

/-- Observable effects, in the order they happen. -/
inductive Effect where
  | ListPipelines (conn : Connection) (args : ListPipelinesArgs)
      (result : Except String ListPipelinesResponseValue)
  | RunPipeline (conn : Connection) (args : RunPipelineArgs) (result : Except String Run)
  | WriteHeader (code : Nat)

/-- The effects of one call and the way it stopped. -/
structure Execution where
  trace : List Effect
  exit : Exit

/-- Go constant `http.StatusBadRequest`. -/
def StatusBadRequest : Nat := 400

/-- Go constant `http.StatusOK`. -/
def StatusOK : Nat := 200

/-- Is the effect a remote call (`ListPipelines` or `RunPipeline`)? -/
def Effect.isRemoteCall : Effect → Bool
  | .ListPipelines _ _ _ => true
  | .RunPipeline _ _ _ => true
  | .WriteHeader _ => false

/-- Is the effect a `RunPipeline` call? -/
def Effect.isRunPipeline : Effect → Bool
  | .RunPipeline _ _ _ => true
  | _ => false

/-- The remote calls of an execution, in order. -/
def Execution.remoteCalls (e : Execution) : List Effect :=
  e.trace.filter Effect.isRemoteCall

/-! ## Library functions with a fixed meaning -/

/-- Segments of a character list between occurrences of `sep`. -/
def splitChars (sep : Char) : List Char → List (List Char)
  | [] => [[]]
  | c :: cs =>
    if c = sep then [] :: splitChars sep cs
    else
      match splitChars sep cs with
      | [] => [[c]]
      | seg :: segs => (c :: seg) :: segs

namespace strings

/-- Go `strings.Split(s, sep)` for a one-character separator, the only use in the
source (line 95): the substrings between the occurrences of `sep`, so one more
element than there are occurrences, and `[""]` for the empty string. -/
def Split (s : String) (sep : Char) : List String :=
  (splitChars sep s.toList).map String.mk

end strings

/-- Go index expression `xs[i]` on a slice: a run-time panic when out of range. -/
def index (xs : List String) (i : Nat) : Except Panic String :=
  match xs.get? i with
  | some x => .ok x
  | none => .error (.indexOutOfRange i xs.length)

/-- Go `BoolAddr` (lines 177-180): a pointer to a copy of the argument. -/
def BoolAddr (b : Bool) : Option Bool := some b

/-- Go `StrAddr` (lines 182-185): a pointer to a copy of the argument. -/
def StrAddr (b : String) : Option String := some b

/-- Go `azuredevops.NewPatConnection` (line 115). -/
def NewPatConnection (organizationURL personalAccessToken : String) : Connection :=
  { organizationURL := organizationURL, personalAccessToken := personalAccessToken }

namespace json

/-- Go `json.Unmarshal(data, &event)` where `event` is an `interface{}` variable
(lines 71, 79). The decoder descends into the value an interface holds only when
that value is a non-nil pointer; `cur` is never a pointer (see `Any`), so the
interface itself is the target and receives the generic decoded value, whatever
it held before. -/
def Unmarshal (w : World) (data : List UInt8) (_cur : Any) : Except String Any :=
  match w.jsonDecode data with
  | .error err => .error err
  | .ok v => .ok (Any.ofJson v)

/-- Go `json.Marshal(githubContext)` (line 142): the struct is encoded as a JSON
object whose members are the fields in declaration order under the names of
their `json` tags (lines 16-21). -/
def Marshal (w : World) (c : GithubContext) : Except String String :=
  match w.jsonEncodeAny c.Event with
  | .error err => .error err
  | .ok ev =>
    .ok ("\x7b\"event\":" ++ ev
      ++ ",\"event_name\":" ++ w.jsonEncodeString c.EventName
      ++ ",\"repository\":" ++ w.jsonEncodeString c.Repository
      ++ ",\"repository_owner\":" ++ w.jsonEncodeString c.RepositoryOwner ++ "\x7d")

end json

/-! ## `runAzureDevopsPipeline` (lines 109-175) -/

/-- The loop of lines 130-136: the `Id` pointer of the first pipeline whose name
is `"digger"`, or nil; `*pipeline.Name` panics on a nil name. -/
def findPipelineID : List Pipeline → Except Panic (Option Int)
  | [] => .ok none
  | pipeline :: rest =>
    match pipeline.Name with
    | none => .error .nilDereference
    | some name => if name = "digger" then .ok pipeline.Id else findPipelineID rest

/-- The `RunPipelineArgs` literal of lines 148-167. -/
def runPipelineArgs (githubContext : GithubContext) (pipelineID : Option Int)
    (ghContext githubToken githubRepoOwner : String) : RunPipelineArgs :=
  { Project := some githubContext.Repository,
    PipelineId := pipelineID,
    RunParameters := some
      { Variables :=
          [ ("GITHUB_CONTEXT", { IsSecret := BoolAddr false, Value := StrAddr ghContext }),
            ("GITHUB_REPO_OWNER", { IsSecret := BoolAddr false, Value := StrAddr githubRepoOwner }),
            ("GITHUB_TOKEN", { IsSecret := BoolAddr true, Value := StrAddr githubToken }) ] } }

/-- Go `runAzureDevopsPipeline` (lines 109-175). -/
def runAzureDevopsPipeline (w : World) (githubContext : GithubContext)
    (githubToken githubRepoOwner : String) : Execution :=
  let organizationURL := w.Getenv "AZURE_DEVOPS_EXT_ORG_URL"
  let personalAccessToken := w.Getenv "AZURE_DEVOPS_EXT_PAT"
  let connection := NewPatConnection organizationURL personalAccessToken
  let listPipelinesArgs : ListPipelinesArgs := { Project := some githubContext.Repository }
  let listed := w.ListPipelines connection listPipelinesArgs
  let e1 := Effect.ListPipelines connection listPipelinesArgs listed
  match listed with
  | .error err => ⟨[e1], .fatal (.listPipelinesFailed err)⟩
  | .ok pipelineList =>
    match findPipelineID pipelineList.Value with
    | .error p => ⟨[e1], .panicked p⟩
    | .ok none => ⟨[e1], .fatal (.pipelineNotFound "digger")⟩
    | .ok (some pipelineID) =>
      match json.Marshal w githubContext with
      | .error err => ⟨[e1], .fatal (.marshalFailed err)⟩
      | .ok ghContext =>
        let args := runPipelineArgs githubContext (some pipelineID) ghContext githubToken
          githubRepoOwner
        let ran := w.RunPipeline connection args
        let e2 := Effect.RunPipeline connection args ran
        match ran with
        | .error err => ⟨[e1, e2], .fatal (.runPipelineFailed err)⟩
        | .ok pipelineRun =>
          match pipelineRun.Id with
          | none => ⟨[e1, e2], .panicked .nilDereference⟩
          | some _ => ⟨[e1, e2], .returned⟩

/-! ## `HandleEvent` (lines 59-107) -/

/-- Lines 68-85: the event variable after the parse step, or the execution that
ends the request with status 400. -/
def parseEvent (w : World) (eventType : String) (body : List UInt8) : Except Execution Any :=
  if eventType = "issue_comment" then
    match json.Unmarshal w body (.IssueCommentEvent IssueCommentEvent.zero) with
    | .error _ => .error ⟨[.WriteHeader StatusBadRequest], .returned⟩
    | .ok event => .ok event
  else if eventType = "pull_request" then
    match json.Unmarshal w body (.PullRequestEvent PullRequestEvent.zero) with
    | .error _ => .error ⟨[.WriteHeader StatusBadRequest], .returned⟩
    | .ok event => .ok event
  else .ok .nil

/-- Lines 88-94: `fullName`, read through the type assertions
`event.(IssueCommentEvent)` and `event.(PullRequestEvent)`, which panic when the
dynamic type of `event` is another one. -/
def fullNameOf (eventType : String) (event : Any) : Except Panic String :=
  if eventType = "issue_comment" then
    match event with
    | .IssueCommentEvent v => .ok v.Repository.FullName
    | _ => .error .interfaceConversion
  else if eventType = "pull_request" then
    match event with
    | .PullRequestEvent v => .ok v.Repository.FullName
    | _ => .error .interfaceConversion
  else .ok ""

/-- Lines 95-102: the normalize step, from `fullName` to the `GithubContext`. -/
def normalize (event : Any) (eventType fullName : String) : Except Panic GithubContext :=
  let splitRepositoryName := strings.Split fullName '/'
  match index splitRepositoryName 0 with
  | .error p => .error p
  | .ok repoOwner =>
    match index splitRepositoryName 1 with
    | .error p => .error p
    | .ok repositoryName =>
      .ok { Event := event, EventName := eventType, Repository := repositoryName,
            RepositoryOwner := repoOwner }

/-- Lines 104-106: the call of `runAzureDevopsPipeline` (its third argument
`repoOwner` is the value stored in `RepositoryOwner` at line 101) and, once it has
returned, `w.WriteHeader(http.StatusOK)`. -/
def respond (w : World) (ghContext : GithubContext) : Execution :=
  let ran := runAzureDevopsPipeline w ghContext (w.Getenv "GITHUB_TOKEN")
    ghContext.RepositoryOwner
  match ran.exit with
  | .returned => ⟨ran.trace ++ [.WriteHeader StatusOK], .returned⟩
  | stop => ⟨ran.trace, stop⟩

/-- Lines 95-106: what `HandleEvent` does once `fullName` is known. -/
def dispatch (w : World) (event : Any) (eventType fullName : String) : Execution :=
  match normalize event eventType fullName with
  | .error p => ⟨[], .panicked p⟩
  | .ok ghContext => respond w ghContext

/-- Lines 67-102: the parse step followed by the normalize step. -/
def parseThenNormalize (w : World) (eventType : String) (body : List UInt8) :
    Except Execution GithubContext :=
  match parseEvent w eventType body with
  | .error stop => .error stop
  | .ok event =>
    match fullNameOf eventType event with
    | .error p => .error ⟨[], .panicked p⟩
    | .ok fullName =>
      match normalize event eventType fullName with
      | .error p => .error ⟨[], .panicked p⟩
      | .ok ghContext => .ok ghContext

/-- Go `HandleEvent` (lines 59-107). -/
def HandleEvent (w : World) (req : Request) : Execution :=
  match req.Body with
  | .error _ => ⟨[.WriteHeader StatusBadRequest], .returned⟩
  | .ok body =>
    let eventType := req.HeaderGet "X-GitHub-Event"
    match parseEvent w eventType body with
    | .error stop => stop
    | .ok event =>
      match fullNameOf eventType event with
      | .error p => ⟨[], .panicked p⟩
      | .ok fullName => dispatch w event eventType fullName

/-! ## A concrete world, to evaluate the definitions on examples -/

/-- ASCII text as bytes. -/
def bytes (s : String) : List UInt8 :=
  s.toList.map (fun c => UInt8.ofNat c.toNat)

/-- A string between double quotes (the JSON encoding of a string that needs no escape). -/
def quote (s : String) : String := "\"" ++ s ++ "\""

mutual
/-- JSON text of a generic value; object members are written in the order given. -/
def encodeJsonValue : JsonValue → String
  | .null => "null"
  | .bool b => if b then "true" else "false"
  | .number text => text
  | .string s => quote s
  | .array items => "[" ++ encodeItems items ++ "]"
  | .object members => "\x7b" ++ encodeMembers members ++ "\x7d"
/-- JSON text of the elements of an array, separated by commas. -/
def encodeItems : List JsonValue → String
  | [] => ""
  | [x] => encodeJsonValue x
  | x :: y :: rest => encodeJsonValue x ++ "," ++ encodeItems (y :: rest)
/-- JSON text of the members of an object, separated by commas. -/
def encodeMembers : List (String × JsonValue) → String
  | [] => ""
  | [(k, v)] => quote k ++ ":" ++ encodeJsonValue v
  | (k, v) :: y :: rest => quote k ++ ":" ++ encodeJsonValue v ++ "," ++ encodeMembers (y :: rest)
end

/-- JSON text of a `Repository`, by its `json` tags (lines 54-57). -/
def encodeRepository (r : Repository) : String :=
  "\x7b\"default_branch\":" ++ quote r.DefaultBranch ++ ",\"full_name\":" ++ quote r.FullName
    ++ "\x7d"

/-- JSON text of a `PullRequestEvent`, by its `json` tags (lines 23-34, 42-44). -/
def encodePullRequestEvent (e : PullRequestEvent) : String :=
  "\x7b\"action\":" ++ quote e.Action ++ ",\"number\":" ++ toString e.Number
    ++ ",\"pull_request\":\x7b\"number\":" ++ toString e.PullRequest.Number
    ++ ",\"merged\":" ++ (if e.PullRequest.Merged then "true" else "false")
    ++ ",\"base\":\x7b\"ref\":" ++ quote e.PullRequest.Base.Ref ++ "\x7d\x7d"
    ++ ",\"repository\":" ++ encodeRepository e.Repository ++ "\x7d"

/-- JSON text of an `IssueCommentEvent`, by its `json` tags (lines 36-40, 46-52). -/
def encodeIssueCommentEvent (e : IssueCommentEvent) : String :=
  "\x7b\"comment\":\x7b\"body\":" ++ quote e.Comment.Body
    ++ "\x7d,\"issue\":\x7b\"number\":" ++ toString e.Issue.Number
    ++ "\x7d,\"repository\":" ++ encodeRepository e.Repository ++ "\x7d"

/-- The request body of the end-to-end example. -/
def acmeBody : List UInt8 :=
  bytes "\x7b\"repository\":\x7b\"full_name\":\"acme/widgets\"\x7d\x7d"

/-- A world for the examples: the decoder knows four bodies and reports a syntax
error for every other one, the remote lists the single pipeline `digger` with
id 7 and every run succeeds with id 1. -/
def exampleWorld : World where
  Getenv := fun key =>
    if key = "GITHUB_TOKEN" then "ghs_token"
    else if key = "AZURE_DEVOPS_EXT_ORG_URL" then "https://dev.azure.com/acme"
    else if key = "AZURE_DEVOPS_EXT_PAT" then "pat"
    else ""
  jsonDecode := fun body =>
    if body = acmeBody then
      .ok (.object [("repository", .object [("full_name", .string "acme/widgets")])])
    else if body = bytes "\x7b\"repository\":\x7b\"full_name\":5\x7d\x7d" then
      .ok (.object [("repository", .object [("full_name", .number "5")])])
    else if body = bytes "[]" then .ok (.array [])
    else if body = bytes "null" then .ok .null
    else .error "invalid character"
  jsonEncodeString := quote
  jsonEncodeAny := fun v =>
    match v with
    | .nil => .ok "null"
    | .IssueCommentEvent e => .ok (encodeIssueCommentEvent e)
    | .PullRequestEvent e => .ok (encodePullRequestEvent e)
    | .generic j => .ok (encodeJsonValue j)
  ListPipelines := fun _ _ => .ok { Value := [{ Id := some 7, Name := some "digger" }] }
  RunPipeline := fun _ _ => .ok { Id := some 1 }

/-- The request of the end-to-end example. -/
def acmeRequest : Request where
  Header := fun key => if key = "X-GitHub-Event" then some "pull_request" else none
  Body := .ok acmeBody

/-- A typed pull-request event for the repository `acme/widgets`. -/
def acmeEvent : PullRequestEvent :=
  { PullRequestEvent.zero with Repository := { DefaultBranch := "", FullName := "acme/widgets" } }

/-! ## Names for the effects of `runAzureDevopsPipeline` -/

/-- The connection `runAzureDevopsPipeline` builds from the environment (lines 111-115). -/
def connectionOf (w : World) : Connection :=
  NewPatConnection (w.Getenv "AZURE_DEVOPS_EXT_ORG_URL") (w.Getenv "AZURE_DEVOPS_EXT_PAT")

/-- The first effect of `runAzureDevopsPipeline` is always the `ListPipelines` call
for the project named after the repository. -/
def listEffect (w : World) (c : GithubContext) : Effect :=
  .ListPipelines (connectionOf w) { Project := some c.Repository }
    (w.ListPipelines (connectionOf w) { Project := some c.Repository })

/-- The `RunPipeline` call `runAzureDevopsPipeline` issues for a resolved id and a
serialized context. -/
def runEffect (w : World) (c : GithubContext) (id : Int) (s token owner : String) : Effect :=
  .RunPipeline (connectionOf w) (runPipelineArgs c (some id) s token owner)
    (w.RunPipeline (connectionOf w) (runPipelineArgs c (some id) s token owner))

/-! ## More worlds for the examples -/

/-- A world whose remote lists five pipelines: two whose names are not `digger`
(one differs only in case), then two named `digger`, then one without name or id. -/
def crowdedWorld : World :=
  { exampleWorld with
    ListPipelines := fun _ _ =>
      .ok { Value :=
        [ { Id := some 1, Name := some "Digger" }, { Id := some 2, Name := some "build" },
          { Id := some 7, Name := some "digger" }, { Id := some 9, Name := some "digger" },
          { Id := none, Name := none } ] } }

/-- The context of the examples: owner `acme`, repository `widgets`. -/
def acmeContext : GithubContext :=
  { Event := .PullRequestEvent acmeEvent, EventName := "pull_request",
    Repository := "widgets", RepositoryOwner := "acme" }

/-- A world whose remote lists pipelines none of which is named `digger`. -/
def barrenWorld : World :=
  { exampleWorld with
    ListPipelines := fun _ _ =>
      .ok { Value := [ { Id := some 1, Name := some "Digger" },
                       { Id := some 2, Name := some "build" } ] } }

/-- A world whose `ListPipelines` call fails. -/
def offlineWorld : World :=
  { exampleWorld with ListPipelines := fun _ _ => .error "connection refused" }

/-- A world whose remote lists a pipeline without name before the pipeline `digger`. -/
def namelessFirstWorld : World :=
  { exampleWorld with
    ListPipelines := fun _ _ =>
      .ok { Value := [ { Id := some 1, Name := none }, { Id := some 7, Name := some "digger" } ] } }

/-- A world whose remote lists two pipelines named `digger`, the first without id. -/
def idlessFirstWorld : World :=
  { exampleWorld with
    ListPipelines := fun _ _ =>
      .ok { Value := [ { Id := none, Name := some "digger" },
                       { Id := some 9, Name := some "digger" } ] } }

/-- A world whose remote lists a single pipeline, without name. -/
def namelessOnlyWorld : World :=
  { exampleWorld with
    ListPipelines := fun _ _ => .ok { Value := [ { Id := some 1, Name := none } ] } }

/-- A request body whose full name has no slash. -/
def noSlashBody : List UInt8 :=
  bytes "\x7b\"repository\":\x7b\"full_name\":\"widgets\"\x7d\x7d"

/-- A request body whose full name has two slashes. -/
def twoSlashBody : List UInt8 :=
  bytes "\x7b\"repository\":\x7b\"full_name\":\"acme/widgets/extra\"\x7d\x7d"

/-- A world whose decoder knows `noSlashBody` and `twoSlashBody`. -/
def slashWorld : World :=
  { exampleWorld with
    jsonDecode := fun body =>
      if body = noSlashBody then
        .ok (.object [("repository", .object [("full_name", .string "widgets")])])
      else if body = twoSlashBody then
        .ok (.object [("repository", .object [("full_name", .string "acme/widgets/extra")])])
      else .error "invalid character" }

/-- The header map that holds `X-GitHub-Event: pull_request` only. -/
def pullRequestHeader : String → Option String :=
  fun key => if key = "X-GitHub-Event" then some "pull_request" else none

/-! ## Lemmas on `strings.Split` and the normalize step -/

theorem splitChars_of_not_mem (sep : Char) (cs : List Char) (h : sep ∉ cs) :
    splitChars sep cs = [cs] := by
  induction cs with
  | nil => rfl
  | cons c cs ih =>
    have hc : c ≠ sep := fun e => h (by simp [e])
    have hcs : sep ∉ cs := fun e => h (by simp [e])
    simp [splitChars, hc, ih hcs]

theorem normalize_of_one_segment (event : Any) (eventType fullName : String)
    (h : '/' ∉ fullName.toList) :
    normalize event eventType fullName = .error (.indexOutOfRange 1 1) := by
  have h2 : splitChars '/' fullName.data = [fullName.data] := splitChars_of_not_mem _ _ h
  simp [normalize, strings.Split, index, h2]

/-! ## Lemmas on `runAzureDevopsPipeline` -/

theorem findPipelineID_first_match (pre post : List Pipeline) (d : Pipeline)
    (hpre : ∀ p ∈ pre, ∃ n, p.Name = some n ∧ n ≠ "digger")
    (hd : d.Name = some "digger") :
    findPipelineID (pre ++ d :: post) = .ok d.Id := by
  induction pre with
  | nil => simp [findPipelineID, hd]
  | cons p pre ih =>
    obtain ⟨n, hn, hne⟩ := hpre p (by simp)
    have := ih (fun q hq => hpre q (by simp [hq]))
    simp [findPipelineID, hn, hne, this]

theorem findPipelineID_no_match (l : List Pipeline)
    (h : ∀ p ∈ l, ∃ n, p.Name = some n ∧ n ≠ "digger") :
    findPipelineID l = .ok none := by
  induction l with
  | nil => rfl
  | cons p l ih =>
    obtain ⟨n, hn, hne⟩ := h p (by simp)
    have := ih (fun q hq => h q (by simp [hq]))
    simp [findPipelineID, hn, hne, this]

theorem findPipelineID_found (l : List Pipeline) (id : Int)
    (h : findPipelineID l = .ok (some id)) :
    ∃ pre d post, l = pre ++ d :: post ∧ d.Name = some "digger" ∧ d.Id = some id ∧
      ∀ p ∈ pre, ∃ n, p.Name = some n ∧ n ≠ "digger" := by
  induction l with
  | nil => simp [findPipelineID] at h
  | cons p l ih =>
    cases hn : p.Name with
    | none => simp [findPipelineID, hn] at h
    | some n =>
      by_cases hd : n = "digger"
      · simp [findPipelineID, hn, hd] at h
        exact ⟨[], p, l, by simp, by simp [hn, hd], h, by simp⟩
      · simp [findPipelineID, hn, hd] at h
        obtain ⟨pre, d, post, hl, h1, h2, h3⟩ := ih h
        refine ⟨p :: pre, d, post, by simp [hl], h1, h2, ?_⟩
        intro q hq
        rcases List.mem_cons.mp hq with e | e
        · exact ⟨n, by simp [e, hn], hd⟩
        · exact h3 q e

theorem findPipelineID_none_of_no_digger (l : List Pipeline)
    (h : ∀ p ∈ l, p.Name ≠ some "digger") (id : Int) :
    findPipelineID l ≠ .ok (some id) := by
  intro hf
  obtain ⟨pre, d, post, hl, h1, _, _⟩ := findPipelineID_found l id hf
  exact h d (by simp [hl]) h1

theorem run_of_list_error (w : World) (c : GithubContext) (t o err : String)
    (h : w.ListPipelines (connectionOf w) { Project := some c.Repository } = .error err) :
    runAzureDevopsPipeline w c t o = ⟨[listEffect w c], .fatal (.listPipelinesFailed err)⟩ := by
  simp only [connectionOf] at h
  simp [runAzureDevopsPipeline, listEffect, connectionOf, h]

theorem run_of_find_error (w : World) (c : GithubContext) (t o : String)
    (l : ListPipelinesResponseValue) (p : Panic)
    (h : w.ListPipelines (connectionOf w) { Project := some c.Repository } = .ok l)
    (hf : findPipelineID l.Value = .error p) :
    runAzureDevopsPipeline w c t o = ⟨[listEffect w c], .panicked p⟩ := by
  simp only [connectionOf] at h
  simp [runAzureDevopsPipeline, listEffect, connectionOf, h, hf]

theorem run_of_not_found (w : World) (c : GithubContext) (t o : String)
    (l : ListPipelinesResponseValue)
    (h : w.ListPipelines (connectionOf w) { Project := some c.Repository } = .ok l)
    (hf : findPipelineID l.Value = .ok none) :
    runAzureDevopsPipeline w c t o =
      ⟨[listEffect w c], .fatal (.pipelineNotFound "digger")⟩ := by
  simp only [connectionOf] at h
  simp [runAzureDevopsPipeline, listEffect, connectionOf, h, hf]

theorem run_of_marshal_error (w : World) (c : GithubContext) (t o : String)
    (l : ListPipelinesResponseValue) (id : Int) (err : String)
    (h : w.ListPipelines (connectionOf w) { Project := some c.Repository } = .ok l)
    (hf : findPipelineID l.Value = .ok (some id))
    (hm : json.Marshal w c = .error err) :
    runAzureDevopsPipeline w c t o = ⟨[listEffect w c], .fatal (.marshalFailed err)⟩ := by
  simp only [connectionOf] at h
  simp [runAzureDevopsPipeline, listEffect, connectionOf, h, hf, hm]

theorem run_of_resolved (w : World) (c : GithubContext) (t o : String)
    (l : ListPipelinesResponseValue) (id : Int) (s : String)
    (h : w.ListPipelines (connectionOf w) { Project := some c.Repository } = .ok l)
    (hf : findPipelineID l.Value = .ok (some id))
    (hm : json.Marshal w c = .ok s) :
    runAzureDevopsPipeline w c t o =
      ⟨[listEffect w c, runEffect w c id s t o],
        match w.RunPipeline (connectionOf w) (runPipelineArgs c (some id) s t o) with
        | .error err => .fatal (.runPipelineFailed err)
        | .ok pipelineRun =>
          match pipelineRun.Id with
          | none => .panicked .nilDereference
          | some _ => .returned⟩ := by
  simp only [connectionOf] at h
  simp only [runAzureDevopsPipeline, listEffect, runEffect, connectionOf, h, hf, hm]
  cases hr : w.RunPipeline (NewPatConnection (w.Getenv "AZURE_DEVOPS_EXT_ORG_URL")
      (w.Getenv "AZURE_DEVOPS_EXT_PAT")) (runPipelineArgs c (some id) s t o) with
  | error err => simp
  | ok r => cases hi : r.Id <;> simp [hi]

theorem fullNameOf_ofJson (eventType : String) (v : JsonValue)
    (hk : eventType = "issue_comment" ∨ eventType = "pull_request") :
    fullNameOf eventType (Any.ofJson v) = .error .interfaceConversion := by
  rcases hk with hk | hk <;> subst hk <;> cases v <;> simp [fullNameOf, Any.ofJson]

theorem parseEvent_recognized (w : World) (eventType : String) (body : List UInt8)
    (hk : eventType = "issue_comment" ∨ eventType = "pull_request") :
    parseEvent w eventType body =
      match w.jsonDecode body with
      | .error _ => .error ⟨[.WriteHeader StatusBadRequest], .returned⟩
      | .ok v => .ok (Any.ofJson v) := by
  rcases hk with hk | hk <;> subst hk <;>
    cases hd : w.jsonDecode body <;> simp [parseEvent, json.Unmarshal, hd]

theorem parseEvent_unrecognized (w : World) (eventType : String) (body : List UInt8)
    (h1 : eventType ≠ "issue_comment") (h2 : eventType ≠ "pull_request") :
    parseEvent w eventType body = .ok .nil := by
  simp [parseEvent, h1, h2]

theorem fullNameOf_unrecognized (eventType : String) (event : Any)
    (h1 : eventType ≠ "issue_comment") (h2 : eventType ≠ "pull_request") :
    fullNameOf eventType event = .ok "" := by
  simp [fullNameOf, h1, h2]

theorem handler_on_recognized_kind (w : World) (req : Request) (body : List UInt8)
    (hb : req.Body = .ok body)
    (hk : req.HeaderGet "X-GitHub-Event" = "issue_comment" ∨
      req.HeaderGet "X-GitHub-Event" = "pull_request") :
    HandleEvent w req =
      match w.jsonDecode body with
      | .error _ => ⟨[.WriteHeader StatusBadRequest], .returned⟩
      | .ok _ => ⟨[], .panicked .interfaceConversion⟩ := by
  simp only [HandleEvent, hb, parseEvent_recognized w _ body hk]
  cases hd : w.jsonDecode body with
  | error err => simp
  | ok v => simp [fullNameOf_ofJson _ v hk]

theorem run_cases (w : World) (c : GithubContext) (t o : String) :
    ((runAzureDevopsPipeline w c t o).trace = [listEffect w c] ∧
      (runAzureDevopsPipeline w c t o).exit ≠ .returned) ∨
    ∃ l id s,
      w.ListPipelines (connectionOf w) { Project := some c.Repository } = .ok l ∧
      findPipelineID l.Value = .ok (some id) ∧
      json.Marshal w c = .ok s ∧
      (runAzureDevopsPipeline w c t o).trace = [listEffect w c, runEffect w c id s t o] ∧
      ((runAzureDevopsPipeline w c t o).exit = .returned →
        ∃ r, w.RunPipeline (connectionOf w) (runPipelineArgs c (some id) s t o) = .ok r) := by
  cases hl : w.ListPipelines (connectionOf w) { Project := some c.Repository } with
  | error err => left; simp [run_of_list_error w c t o err hl]
  | ok l =>
    cases hf : findPipelineID l.Value with
    | error p => left; simp [run_of_find_error w c t o l p hl hf]
    | ok found =>
      cases found with
      | none => left; simp [run_of_not_found w c t o l hl hf]
      | some id =>
        cases hm : json.Marshal w c with
        | error err => left; simp [run_of_marshal_error w c t o l id err hl hf hm]
        | ok s =>
          right
          refine ⟨l, id, s, rfl, hf, rfl, ?_, ?_⟩
          · rw [run_of_resolved w c t o l id s hl hf hm]
          · rw [run_of_resolved w c t o l id s hl hf hm]
            cases hr : w.RunPipeline (connectionOf w) (runPipelineArgs c (some id) s t o) with
            | error err => simp
            | ok r => intro _; exact ⟨r, rfl⟩

theorem dispatch_cases (w : World) (event : Any) (eventType fullName : String) :
    (∃ p, dispatch w event eventType fullName = ⟨[], .panicked p⟩) ∨
    ∃ c, normalize event eventType fullName = .ok c ∧
      (((runAzureDevopsPipeline w c (w.Getenv "GITHUB_TOKEN") c.RepositoryOwner).exit = .returned ∧
        dispatch w event eventType fullName =
          ⟨(runAzureDevopsPipeline w c (w.Getenv "GITHUB_TOKEN") c.RepositoryOwner).trace
            ++ [.WriteHeader StatusOK], .returned⟩) ∨
       ((runAzureDevopsPipeline w c (w.Getenv "GITHUB_TOKEN") c.RepositoryOwner).exit ≠ .returned ∧
        dispatch w event eventType fullName =
          runAzureDevopsPipeline w c (w.Getenv "GITHUB_TOKEN") c.RepositoryOwner)) := by
  cases hn : normalize event eventType fullName with
  | error p => left; exact ⟨p, by simp [dispatch, hn]⟩
  | ok c =>
    right
    refine ⟨c, rfl, ?_⟩
    cases he : (runAzureDevopsPipeline w c (w.Getenv "GITHUB_TOKEN") c.RepositoryOwner).exit with
    | returned => left; simp [dispatch, respond, hn, he]
    | panicked p =>
      right
      refine ⟨by simp, ?_⟩
      simp only [dispatch, respond, hn, he]
      rw [← he]
    | fatal f =>
      right
      refine ⟨by simp, ?_⟩
      simp only [dispatch, respond, hn, he]
      rw [← he]

theorem handler_cases (w : World) (req : Request) :
    HandleEvent w req = ⟨[.WriteHeader StatusBadRequest], .returned⟩ ∨
    (∃ p, HandleEvent w req = ⟨[], .panicked p⟩) ∨
    ∃ event eventType fullName, HandleEvent w req = dispatch w event eventType fullName := by
  cases hb : req.Body with
  | error err => left; simp [HandleEvent, hb]
  | ok body =>
    by_cases hk : req.HeaderGet "X-GitHub-Event" = "issue_comment" ∨
        req.HeaderGet "X-GitHub-Event" = "pull_request"
    · rw [handler_on_recognized_kind w req body hb hk]
      cases hd : w.jsonDecode body with
      | error err => left; rfl
      | ok v => right; left; exact ⟨_, rfl⟩
    · have h1 : req.HeaderGet "X-GitHub-Event" ≠ "issue_comment" := fun e => hk (Or.inl e)
      have h2 : req.HeaderGet "X-GitHub-Event" ≠ "pull_request" := fun e => hk (Or.inr e)
      right; right
      refine ⟨.nil, req.HeaderGet "X-GitHub-Event", "", ?_⟩
      simp [HandleEvent, hb, parseEvent_unrecognized w _ body h1 h2,
        fullNameOf_unrecognized _ _ h1 h2]

theorem dispatch_status (w : World) (event : Any) (eventType fullName : String) :
    (Effect.WriteHeader StatusOK ∈ (dispatch w event eventType fullName).trace →
      ∃ c l id s r,
        normalize event eventType fullName = .ok c ∧
        (runAzureDevopsPipeline w c (w.Getenv "GITHUB_TOKEN") c.RepositoryOwner).exit
          = .returned ∧
        findPipelineID l.Value = .ok (some id) ∧
        (dispatch w event eventType fullName).trace =
          [ .ListPipelines (connectionOf w) { Project := some c.Repository } (.ok l),
            .RunPipeline (connectionOf w)
              (runPipelineArgs c (some id) s (w.Getenv "GITHUB_TOKEN") c.RepositoryOwner)
              (.ok r),
            .WriteHeader StatusOK ] ∧
        (dispatch w event eventType fullName).exit = .returned) ∧
    Effect.WriteHeader StatusBadRequest ∉ (dispatch w event eventType fullName).trace := by
  rcases dispatch_cases w event eventType fullName with
    ⟨p, hp⟩ | ⟨c, hn, ⟨hex, hd⟩ | ⟨hex, hd⟩⟩
  · rw [hp]
    simp
  · rcases run_cases w c (w.Getenv "GITHUB_TOKEN") c.RepositoryOwner with
      ⟨_, hne⟩ | ⟨l, id, s, hl, hf, _, htr, hr⟩
    · exact absurd hex hne
    · obtain ⟨r, hr⟩ := hr hex
      rw [hd, htr]
      refine ⟨fun _ => ⟨c, l, id, s, r, hn, hex, hf, ?_, rfl⟩, ?_⟩
      · simp [listEffect, runEffect, hl, hr]
      · simp [listEffect, runEffect, StatusOK, StatusBadRequest]
  · rw [hd]
    rcases run_cases w c (w.Getenv "GITHUB_TOKEN") c.RepositoryOwner with
      ⟨htr, _⟩ | ⟨l, id, s, _, _, _, htr, _⟩
    · rw [htr]
      simp [listEffect]
    · rw [htr]
      simp [listEffect, runEffect]

theorem handler_after_parseThenNormalize (w : World) (req : Request) (body : List UInt8)
    (hb : req.Body = .ok body) :
    HandleEvent w req =
      match parseThenNormalize w (req.HeaderGet "X-GitHub-Event") body with
      | .error stop => stop
      | .ok ghContext => respond w ghContext := by
  cases h1 : parseEvent w (req.HeaderGet "X-GitHub-Event") body with
  | error stop => simp [HandleEvent, hb, parseThenNormalize, h1]
  | ok event =>
    cases h2 : fullNameOf (req.HeaderGet "X-GitHub-Event") event with
    | error p => simp [HandleEvent, hb, parseThenNormalize, h1, h2]
    | ok fullName =>
      cases h3 : normalize event (req.HeaderGet "X-GitHub-Event") fullName <;>
        simp [HandleEvent, hb, parseThenNormalize, dispatch, h1, h2, h3]

/-! ## The claims -/

/-- C1 (the code at the failing input). For the event kind `pull_request` and every
body the JSON decoder accepts, in particular a valid pull-request object with
`repository.full_name = F`, the parse step followed by the normalize step of
`HandleEvent` produces no `GithubContext`: the parse step leaves a generic JSON
value in `event`, and the type assertion `event.(PullRequestEvent)` of line 93
panics before `fullName` is split. -/
theorem parseThenNormalize_pull_request_panics (w : World) (body : List UInt8) (v : JsonValue)
    (h : w.jsonDecode body = .ok v) :
    parseThenNormalize w "pull_request" body =
      .error ⟨[], .panicked .interfaceConversion⟩ := by
  simp [parseThenNormalize, parseEvent_recognized w "pull_request" body (Or.inr rfl), h,
    fullNameOf_ofJson "pull_request" v (Or.inr rfl)]

theorem parseThenNormalize_pull_request_panics_witness :
    exampleWorld.jsonDecode acmeBody =
        .ok (.object [("repository", .object [("full_name", .string "acme/widgets")])]) ∧
      parseThenNormalize exampleWorld "pull_request" acmeBody =
        .error ⟨[], .panicked .interfaceConversion⟩ :=
  ⟨rfl, parseThenNormalize_pull_request_panics exampleWorld acmeBody _ rfl⟩

/-- C2 (the code at the failing input). For the event kind `pull_request` and a body
whose `repository.full_name` is `widgets` (no slash) or `acme/widgets/extra` (two
slashes), `HandleEvent` produces no invalid-repository-identifier rejection: no
status is written, and the handler panics at the type assertion of line 93,
before the full name is read or split. No remote call is made. -/
theorem HandleEvent_malformed_full_name_panics :
    slashWorld.jsonDecode noSlashBody =
        .ok (.object [("repository", .object [("full_name", .string "widgets")])]) ∧
      HandleEvent slashWorld { Header := pullRequestHeader, Body := .ok noSlashBody } =
        ⟨[], .panicked .interfaceConversion⟩ ∧
      slashWorld.jsonDecode twoSlashBody =
        .ok (.object [("repository", .object [("full_name", .string "acme/widgets/extra")])]) ∧
      HandleEvent slashWorld { Header := pullRequestHeader, Body := .ok twoSlashBody } =
        ⟨[], .panicked .interfaceConversion⟩ :=
  ⟨rfl, rfl, rfl, rfl⟩

/-- C3 (the code at the failing input). For every request whose body can be read and
whose `X-GitHub-Event` value is neither `issue_comment` nor `pull_request` (an
absent header reads as the empty string), `HandleEvent` writes no status at all:
`fullName` stays empty, `strings.Split` returns one segment and the index
expression `splitRepositoryName[1]` of line 96 panics. No remote call is made. -/
theorem HandleEvent_unrecognized_kind_panics (w : World) (req : Request) (body : List UInt8)
    (hb : req.Body = .ok body)
    (h1 : req.HeaderGet "X-GitHub-Event" ≠ "issue_comment")
    (h2 : req.HeaderGet "X-GitHub-Event" ≠ "pull_request") :
    HandleEvent w req = ⟨[], .panicked (.indexOutOfRange 1 1)⟩ := by
  have hn : normalize .nil (req.HeaderGet "X-GitHub-Event") "" =
      .error (.indexOutOfRange 1 1) :=
    normalize_of_one_segment _ _ "" (by simp)
  simp [HandleEvent, hb, parseEvent_unrecognized w _ body h1 h2,
    fullNameOf_unrecognized _ _ h1 h2, dispatch, hn]

theorem HandleEvent_unrecognized_kind_panics_witness :
    HandleEvent exampleWorld
        { Header := fun key => if key = "X-GitHub-Event" then some "push" else none,
          Body := .ok acmeBody } = ⟨[], .panicked (.indexOutOfRange 1 1)⟩ ∧
      HandleEvent exampleWorld { Header := fun _ => none, Body := .ok [] } =
        ⟨[], .panicked (.indexOutOfRange 1 1)⟩ :=
  ⟨HandleEvent_unrecognized_kind_panics exampleWorld _ acmeBody rfl (by decide) (by decide),
    HandleEvent_unrecognized_kind_panics exampleWorld _ [] rfl (by decide) (by decide)⟩

/-- C4 (the code at the failing input). In the end-to-end scenario (event kind
`pull_request`, body `{"repository":{"full_name":"acme/widgets"}}`, a remote that
lists the pipeline `digger` with id 7 and accepts every run) `HandleEvent` makes
no remote call and writes no status: it panics at the type assertion of line 93. -/
theorem HandleEvent_end_to_end_panics :
    acmeRequest.HeaderGet "X-GitHub-Event" = "pull_request" ∧
      acmeRequest.Body =
        .ok (bytes "\x7b\"repository\":\x7b\"full_name\":\"acme/widgets\"\x7d\x7d") ∧
      (∀ conn args, exampleWorld.ListPipelines conn args =
        .ok { Value := [{ Id := some 7, Name := some "digger" }] }) ∧
      (∀ conn args, exampleWorld.RunPipeline conn args = .ok { Id := some 1 }) ∧
      HandleEvent exampleWorld acmeRequest = ⟨[], .panicked .interfaceConversion⟩ :=
  ⟨rfl, rfl, fun _ _ => rfl, fun _ _ => rfl, rfl⟩

/-- C5 (counterexample). Both listings contain an entry named `digger`. In the first a
nameless entry stands before it: the scan panics on `*pipeline.Name` at line 132
and `RunPipeline` is not called. In the second the first entry named `digger` has
no id: the scan yields nil although the next `digger` has id 9, the function
stops at pipeline not found and `RunPipeline` is not called. -/
theorem findPipelineID_nil_fields_counterexample :
    findPipelineID [ { Id := some 1, Name := none }, { Id := some 7, Name := some "digger" } ] =
        .error .nilDereference ∧
      runAzureDevopsPipeline namelessFirstWorld acmeContext "ghs_token" "acme" =
        ⟨[.ListPipelines (connectionOf namelessFirstWorld) { Project := some "widgets" }
            (.ok { Value := [ { Id := some 1, Name := none },
                              { Id := some 7, Name := some "digger" } ] })],
          .panicked .nilDereference⟩ ∧
      findPipelineID [ { Id := none, Name := some "digger" },
                       { Id := some 9, Name := some "digger" } ] = .ok none ∧
      runAzureDevopsPipeline idlessFirstWorld acmeContext "ghs_token" "acme" =
        ⟨[.ListPipelines (connectionOf idlessFirstWorld) { Project := some "widgets" }
            (.ok { Value := [ { Id := none, Name := some "digger" },
                              { Id := some 9, Name := some "digger" } ] })],
          .fatal (.pipelineNotFound "digger")⟩ :=
  ⟨rfl, rfl, rfl, rfl⟩

/-- C5 (amended). When the listing is `pre ++ d :: post`, where `d` is named `digger` and
carries the id `i` and every entry of `pre` carries a name other than `digger` (so
`d` is the first entry named `digger`, at any position, and `post` is arbitrary),
and `json.Marshal` of the context returns `s`, the scan selects `i` and the
execution consists of the `ListPipelines` call followed by exactly one
`RunPipeline` call, whose `PipelineId` is `i`. -/
theorem runAzureDevopsPipeline_selects_first_digger (w : World) (c : GithubContext)
    (t o s : String) (pre post : List Pipeline) (d : Pipeline) (i : Int)
    (hl : w.ListPipelines (connectionOf w) { Project := some c.Repository } =
      .ok { Value := pre ++ d :: post })
    (hpre : ∀ p ∈ pre, ∃ n, p.Name = some n ∧ n ≠ "digger")
    (hd : d.Name = some "digger") (hi : d.Id = some i)
    (hm : json.Marshal w c = .ok s) :
    findPipelineID (pre ++ d :: post) = .ok (some i) ∧
    (runAzureDevopsPipeline w c t o).trace =
      [ .ListPipelines (connectionOf w) { Project := some c.Repository }
          (.ok { Value := pre ++ d :: post }),
        .RunPipeline (connectionOf w) (runPipelineArgs c (some i) s t o)
          (w.RunPipeline (connectionOf w) (runPipelineArgs c (some i) s t o)) ] ∧
    (runPipelineArgs c (some i) s t o).PipelineId = some i := by
  have hf : findPipelineID (pre ++ d :: post) = .ok (some i) := by
    rw [findPipelineID_first_match pre post d hpre hd, hi]
  refine ⟨hf, ?_, rfl⟩
  rw [run_of_resolved w c t o _ i s hl hf hm]
  simp [listEffect, runEffect, hl]

theorem runAzureDevopsPipeline_selects_first_digger_witness :
    ∃ s, json.Marshal crowdedWorld acmeContext = .ok s ∧
      findPipelineID
          ([ { Id := some 1, Name := some "Digger" }, { Id := some 2, Name := some "build" } ]
            ++ { Id := some 7, Name := some "digger" }
              :: [ { Id := some 9, Name := some "digger" }, { Id := none, Name := none } ]) =
        .ok (some 7) ∧
      (runAzureDevopsPipeline crowdedWorld acmeContext "ghs_token" "acme").trace =
        [ .ListPipelines (connectionOf crowdedWorld) { Project := some "widgets" }
            (.ok { Value :=
              [ { Id := some 1, Name := some "Digger" }, { Id := some 2, Name := some "build" } ]
                ++ { Id := some 7, Name := some "digger" }
                  :: [ { Id := some 9, Name := some "digger" }, { Id := none, Name := none } ] }),
          .RunPipeline (connectionOf crowdedWorld)
            (runPipelineArgs acmeContext (some 7) s "ghs_token" "acme")
            (crowdedWorld.RunPipeline (connectionOf crowdedWorld)
              (runPipelineArgs acmeContext (some 7) s "ghs_token" "acme")) ] ∧
      (runPipelineArgs acmeContext (some 7) s "ghs_token" "acme").PipelineId = some 7 :=
  ⟨_, rfl,
    runAzureDevopsPipeline_selects_first_digger crowdedWorld acmeContext "ghs_token" "acme" _
      [ { Id := some 1, Name := some "Digger" }, { Id := some 2, Name := some "build" } ]
      [ { Id := some 9, Name := some "digger" }, { Id := none, Name := none } ]
      { Id := some 7, Name := some "digger" } 7 rfl
      (by
        intro p hp
        simp only [List.mem_cons, List.mem_singleton, List.not_mem_nil, or_false] at hp
        rcases hp with rfl | rfl
        · exact ⟨"Digger", rfl, by decide⟩
        · exact ⟨"build", rfl, by decide⟩)
      rfl rfl rfl⟩

/-- C6 (counterexample). The listing holds one pipeline, without name, so no entry is
named `digger`; the function does not stop at pipeline not found: it panics on
`*pipeline.Name` at line 132. -/
theorem runAzureDevopsPipeline_nameless_counterexample :
    (∀ p ∈ [ ({ Id := some 1, Name := none } : Pipeline) ], p.Name ≠ some "digger") ∧
      runAzureDevopsPipeline namelessOnlyWorld acmeContext "ghs_token" "acme" =
        ⟨[.ListPipelines (connectionOf namelessOnlyWorld) { Project := some "widgets" }
            (.ok { Value := [ { Id := some 1, Name := none } ] })],
          .panicked .nilDereference⟩ :=
  ⟨by simp, rfl⟩

/-- C6 (amended). When `ListPipelines` returns an error, `runAzureDevopsPipeline` stops at the
`log.Fatalf` of line 126 after that single call. When it returns a listing in
which every entry has a name other than `digger` (the empty listing included),
the function stops at the `log.Fatalf` of line 139, pipeline `digger` not found,
after that single call. More generally, when no entry of the listing is named
`digger`, the `ListPipelines` call is the only effect and the function does not
return normally. In all three cases `RunPipeline` is not called. -/
theorem runAzureDevopsPipeline_without_digger (w : World) (c : GithubContext) (t o : String) :
    (∀ err, w.ListPipelines (connectionOf w) { Project := some c.Repository } = .error err →
      runAzureDevopsPipeline w c t o =
        ⟨[.ListPipelines (connectionOf w) { Project := some c.Repository } (.error err)],
          .fatal (.listPipelinesFailed err)⟩) ∧
    (∀ l, w.ListPipelines (connectionOf w) { Project := some c.Repository } = .ok l →
      (∀ p ∈ l.Value, ∃ n, p.Name = some n ∧ n ≠ "digger") →
      runAzureDevopsPipeline w c t o =
        ⟨[.ListPipelines (connectionOf w) { Project := some c.Repository } (.ok l)],
          .fatal (.pipelineNotFound "digger")⟩) ∧
    (∀ l, w.ListPipelines (connectionOf w) { Project := some c.Repository } = .ok l →
      (∀ p ∈ l.Value, p.Name ≠ some "digger") →
      (runAzureDevopsPipeline w c t o).trace =
        [.ListPipelines (connectionOf w) { Project := some c.Repository } (.ok l)] ∧
      (runAzureDevopsPipeline w c t o).trace.filter Effect.isRunPipeline = [] ∧
      (runAzureDevopsPipeline w c t o).exit ≠ .returned) := by
  refine ⟨fun err hl => ?_, fun l hl hno => ?_, fun l hl hno => ?_⟩
  · rw [run_of_list_error w c t o err hl]
    simp [listEffect, hl]
  · rw [run_of_not_found w c t o l hl (findPipelineID_no_match _ hno)]
    simp [listEffect, hl]
  · cases hf : findPipelineID l.Value with
    | error p =>
      rw [run_of_find_error w c t o l p hl hf]
      simp [listEffect, hl, Effect.isRunPipeline]
    | ok found =>
      cases found with
      | none =>
        rw [run_of_not_found w c t o l hl hf]
        simp [listEffect, hl, Effect.isRunPipeline]
      | some id => exact absurd hf (findPipelineID_none_of_no_digger _ hno id)

theorem runAzureDevopsPipeline_without_digger_witness :
    runAzureDevopsPipeline offlineWorld acmeContext "ghs_token" "acme" =
        ⟨[.ListPipelines (connectionOf offlineWorld) { Project := some "widgets" }
            (.error "connection refused")],
          .fatal (.listPipelinesFailed "connection refused")⟩ ∧
      runAzureDevopsPipeline barrenWorld acmeContext "ghs_token" "acme" =
        ⟨[.ListPipelines (connectionOf barrenWorld) { Project := some "widgets" }
            (.ok { Value := [ { Id := some 1, Name := some "Digger" },
                              { Id := some 2, Name := some "build" } ] })],
          .fatal (.pipelineNotFound "digger")⟩ ∧
      (runAzureDevopsPipeline namelessOnlyWorld acmeContext "ghs_token" "acme").trace.filter
          Effect.isRunPipeline = [] ∧
      (runAzureDevopsPipeline namelessOnlyWorld acmeContext "ghs_token" "acme").exit
        ≠ .returned :=
  ⟨(runAzureDevopsPipeline_without_digger offlineWorld acmeContext "ghs_token" "acme").1
      "connection refused" rfl,
    (runAzureDevopsPipeline_without_digger barrenWorld acmeContext "ghs_token" "acme").2.1
      _ rfl
      (by
        intro p hp
        simp only [List.mem_cons, List.mem_singleton, List.not_mem_nil, or_false] at hp
        rcases hp with rfl | rfl
        · exact ⟨"Digger", rfl, by decide⟩
        · exact ⟨"build", rfl, by decide⟩),
    ((runAzureDevopsPipeline_without_digger namelessOnlyWorld acmeContext "ghs_token"
      "acme").2.2 _ rfl (by simp)).2⟩

/-- C7. Every `RunPipeline` request that `runAzureDevopsPipeline` issues for a context
`c`, token `t` and owner `o` comes after a `ListPipelines` call for the project
`c.Repository`, has `Project = c.Repository`, carries the resolved id, and has
exactly the variables `GITHUB_CONTEXT` (not secret; the JSON object with the
members `event`, `event_name`, `repository`, `repository_owner` of `c`),
`GITHUB_REPO_OWNER` (not secret; `o`) and `GITHUB_TOKEN` (secret; `t`). Such a
request is issued whenever a pipeline is resolved and `c` serializes. -/
theorem runPipeline_request_shape (w : World) (c : GithubContext) (t o : String) :
    (∀ conn args res,
      Effect.RunPipeline conn args res ∈ (runAzureDevopsPipeline w c t o).trace →
      ∃ l id ev,
        (runAzureDevopsPipeline w c t o).trace =
          [ .ListPipelines conn { Project := some c.Repository } (.ok l),
            .RunPipeline conn args res ] ∧
        findPipelineID l.Value = .ok (some id) ∧
        w.jsonEncodeAny c.Event = .ok ev ∧
        args.Project = some c.Repository ∧
        args.PipelineId = some id ∧
        args.RunParameters = some
          { Variables :=
              [ ("GITHUB_CONTEXT",
                  { IsSecret := some false,
                    Value := some ("\x7b\"event\":" ++ ev
                      ++ ",\"event_name\":" ++ w.jsonEncodeString c.EventName
                      ++ ",\"repository\":" ++ w.jsonEncodeString c.Repository
                      ++ ",\"repository_owner\":" ++ w.jsonEncodeString c.RepositoryOwner
                      ++ "\x7d") }),
                ("GITHUB_REPO_OWNER", { IsSecret := some false, Value := some o }),
                ("GITHUB_TOKEN", { IsSecret := some true, Value := some t }) ] }) ∧
    (∀ l id s,
      w.ListPipelines (connectionOf w) { Project := some c.Repository } = .ok l →
      findPipelineID l.Value = .ok (some id) →
      json.Marshal w c = .ok s →
      Effect.RunPipeline (connectionOf w) (runPipelineArgs c (some id) s t o)
          (w.RunPipeline (connectionOf w) (runPipelineArgs c (some id) s t o)) ∈
        (runAzureDevopsPipeline w c t o).trace) := by
  constructor
  · intro conn args res hmem
    rcases run_cases w c t o with ⟨htr, _⟩ | ⟨l, id, s, hl, hf, hm, htr, _⟩
    · rw [htr] at hmem
      simp [listEffect] at hmem
    · rw [htr] at hmem
      simp only [listEffect, runEffect, List.mem_cons, List.mem_singleton, List.not_mem_nil,
        or_false, reduceCtorEq, false_or] at hmem
      injection hmem with h1 h2 h3
      subst h1 h2 h3
      cases hev : w.jsonEncodeAny c.Event with
      | error err => simp [json.Marshal, hev] at hm
      | ok ev =>
        simp only [json.Marshal, hev, Except.ok.injEq] at hm
        refine ⟨l, id, ev, ?_, hf, rfl, rfl, rfl, ?_⟩
        · rw [htr]
          simp [listEffect, runEffect, hl]
        · simp [runPipelineArgs, BoolAddr, StrAddr, ← hm]
  · intro l id s hl hf hm
    rw [run_of_resolved w c t o l id s hl hf hm]
    simp [runEffect]

theorem runPipeline_request_shape_witness :
    ∃ args res, Effect.RunPipeline (connectionOf exampleWorld) args res ∈
        (runAzureDevopsPipeline exampleWorld acmeContext "ghs_token" "acme").trace ∧
      args.Project = some "widgets" ∧
      args.RunParameters.map (fun ps => ps.Variables.map Prod.fst) =
        some ["GITHUB_CONTEXT", "GITHUB_REPO_OWNER", "GITHUB_TOKEN"] := by
  have hmem :=
    (runPipeline_request_shape exampleWorld acmeContext "ghs_token" "acme").2
      { Value := [{ Id := some 7, Name := some "digger" }] } 7 _ rfl rfl rfl
  obtain ⟨l, id, ev, _, _, _, hp, _, hv⟩ :=
    (runPipeline_request_shape exampleWorld acmeContext "ghs_token" "acme").1 _ _ _ hmem
  exact ⟨_, _, hmem, hp, by rw [hv]; rfl⟩

/-- C8 (the code at the failing input). The bodies `[]` and
`{"repository":{"full_name":5}}` are valid JSON that does not fit the event
shape; for the event kinds `pull_request` and `issue_comment` `HandleEvent` writes
no status 400 for them: it panics at the type assertion of line 93 or line 91,
without any remote call. -/
theorem HandleEvent_incompatible_body_panics :
    exampleWorld.jsonDecode (bytes "[]") = .ok (.array []) ∧
      HandleEvent exampleWorld
          { Header := fun key => if key = "X-GitHub-Event" then some "pull_request" else none,
            Body := .ok (bytes "[]") } = ⟨[], .panicked .interfaceConversion⟩ ∧
      exampleWorld.jsonDecode (bytes "\x7b\"repository\":\x7b\"full_name\":5\x7d\x7d") =
        .ok (.object [("repository", .object [("full_name", .number "5")])]) ∧
      HandleEvent exampleWorld
          { Header := fun key => if key = "X-GitHub-Event" then some "issue_comment" else none,
            Body := .ok (bytes "\x7b\"repository\":\x7b\"full_name\":5\x7d\x7d") } =
        ⟨[], .panicked .interfaceConversion⟩ :=
  ⟨rfl, rfl, rfl, rfl⟩

/-- C9. Let `e` be the execution of `HandleEvent` on any request, or of lines 95-106
of `HandleEvent` entered with any event variable, event kind and full name, for
any behaviour of the remote client. If `e` writes status 200, then
`runAzureDevopsPipeline` returned normally and `e` consists of exactly one
`ListPipelines` call that succeeded with a listing in which `digger` was found,
then one `RunPipeline` call for that id that succeeded, then the `WriteHeader`,
in this order. If `e` writes status 400, the `WriteHeader` is its only effect. -/
theorem status_written_after_remote_calls (w : World) (req : Request) (event : Any)
    (eventType fullName : String) (e : Execution)
    (he : e = HandleEvent w req ∨ e = dispatch w event eventType fullName) :
    (Effect.WriteHeader StatusOK ∈ e.trace →
      ∃ c l id s r,
        (runAzureDevopsPipeline w c (w.Getenv "GITHUB_TOKEN") c.RepositoryOwner).exit
          = .returned ∧
        findPipelineID l.Value = .ok (some id) ∧
        (∃ d ∈ l.Value, d.Name = some "digger" ∧ d.Id = some id) ∧
        e.trace =
          [ .ListPipelines (connectionOf w) { Project := some c.Repository } (.ok l),
            .RunPipeline (connectionOf w)
              (runPipelineArgs c (some id) s (w.Getenv "GITHUB_TOKEN") c.RepositoryOwner)
              (.ok r),
            .WriteHeader StatusOK ] ∧
        e.exit = .returned) ∧
    (Effect.WriteHeader StatusBadRequest ∈ e.trace →
      e.trace = [.WriteHeader StatusBadRequest]) := by
  have key : ∀ ev k f, e = dispatch w ev k f →
      (Effect.WriteHeader StatusOK ∈ e.trace →
        ∃ c l id s r,
          (runAzureDevopsPipeline w c (w.Getenv "GITHUB_TOKEN") c.RepositoryOwner).exit
            = .returned ∧
          findPipelineID l.Value = .ok (some id) ∧
          (∃ d ∈ l.Value, d.Name = some "digger" ∧ d.Id = some id) ∧
          e.trace =
            [ .ListPipelines (connectionOf w) { Project := some c.Repository } (.ok l),
              .RunPipeline (connectionOf w)
                (runPipelineArgs c (some id) s (w.Getenv "GITHUB_TOKEN") c.RepositoryOwner)
                (.ok r),
              .WriteHeader StatusOK ] ∧
          e.exit = .returned) ∧
      (Effect.WriteHeader StatusBadRequest ∈ e.trace →
        e.trace = [.WriteHeader StatusBadRequest]) := by
    intro ev k f hd
    subst hd
    obtain ⟨h200, h400⟩ := dispatch_status w ev k f
    refine ⟨fun hm => ?_, fun hm => absurd hm h400⟩
    obtain ⟨c, l, id, s, r, _, hex, hf, htr, hexit⟩ := h200 hm
    obtain ⟨pre, d, post, hl, hdn, hdi, _⟩ := findPipelineID_found l.Value id hf
    exact ⟨c, l, id, s, r, hex, hf, ⟨d, by simp [hl], hdn, hdi⟩, htr, hexit⟩
  rcases he with he | he
  · rcases handler_cases w req with h | ⟨p, h⟩ | ⟨ev, k, f, h⟩
    · rw [he, h]
      simp [StatusOK, StatusBadRequest]
    · rw [he, h]
      simp
    · exact key ev k f (he.trans h)
  · exact key event eventType fullName he

theorem status_written_after_remote_calls_witness :
    (Effect.WriteHeader StatusOK ∈
        (dispatch exampleWorld (.PullRequestEvent acmeEvent) "pull_request"
          "acme/widgets").trace ∧
      ∃ c l id s r,
        (runAzureDevopsPipeline exampleWorld c (exampleWorld.Getenv "GITHUB_TOKEN")
          c.RepositoryOwner).exit = .returned ∧
        findPipelineID l.Value = .ok (some id) ∧
        (∃ d ∈ l.Value, d.Name = some "digger" ∧ d.Id = some id) ∧
        (dispatch exampleWorld (.PullRequestEvent acmeEvent) "pull_request"
          "acme/widgets").trace =
          [ .ListPipelines (connectionOf exampleWorld) { Project := some c.Repository } (.ok l),
            .RunPipeline (connectionOf exampleWorld)
              (runPipelineArgs c (some id) s (exampleWorld.Getenv "GITHUB_TOKEN")
                c.RepositoryOwner) (.ok r),
            .WriteHeader StatusOK ] ∧
        (dispatch exampleWorld (.PullRequestEvent acmeEvent) "pull_request"
          "acme/widgets").exit = .returned) ∧
    (Effect.WriteHeader StatusBadRequest ∈
        (HandleEvent exampleWorld { acmeRequest with Body := .ok (bytes "\x7b") }).trace ∧
      (HandleEvent exampleWorld { acmeRequest with Body := .ok (bytes "\x7b") }).trace =
        [.WriteHeader StatusBadRequest]) :=
  ⟨⟨List.Mem.tail _ (List.Mem.tail _ (List.Mem.head _)),
      (status_written_after_remote_calls exampleWorld acmeRequest
        (.PullRequestEvent acmeEvent) "pull_request" "acme/widgets" _ (Or.inr rfl)).1
        (List.Mem.tail _ (List.Mem.tail _ (List.Mem.head _)))⟩,
    ⟨List.Mem.head _,
      (status_written_after_remote_calls exampleWorld
        { acmeRequest with Body := .ok (bytes "\x7b") } .nil "" "" _ (Or.inl rfl)).2
        (List.Mem.head _)⟩⟩

/-- C10. For every request whose body can be read and whose `X-GitHub-Event` is
`issue_comment` or `pull_request`: either the JSON decoder rejects the body and
`HandleEvent` writes 400 and returns, or the decoder accepts it, the parse step
leaves in `event` the generic decoded value, which is neither an
`IssueCommentEvent` nor a `PullRequestEvent`, and `HandleEvent` panics at the type
assertion with no effect at all. In both cases there is no remote call and no
status 200. -/
theorem HandleEvent_recognized_kind_never_dispatches (w : World) (req : Request)
    (body : List UInt8) (hb : req.Body = .ok body)
    (hk : req.HeaderGet "X-GitHub-Event" = "issue_comment" ∨
      req.HeaderGet "X-GitHub-Event" = "pull_request") :
    (((∃ err, w.jsonDecode body = .error err) ∧
        HandleEvent w req = ⟨[.WriteHeader StatusBadRequest], .returned⟩) ∨
      ((∃ v, w.jsonDecode body = .ok v ∧
          parseEvent w (req.HeaderGet "X-GitHub-Event") body = .ok (Any.ofJson v) ∧
          (∀ x, Any.ofJson v ≠ .IssueCommentEvent x) ∧
          (∀ x, Any.ofJson v ≠ .PullRequestEvent x)) ∧
        HandleEvent w req = ⟨[], .panicked .interfaceConversion⟩)) ∧
    (HandleEvent w req).remoteCalls = [] ∧
    Effect.WriteHeader StatusOK ∉ (HandleEvent w req).trace := by
  have h := handler_on_recognized_kind w req body hb hk
  have hp := parseEvent_recognized w _ body hk
  cases hd : w.jsonDecode body with
  | error err =>
    rw [hd] at h
    simp only at h
    refine ⟨Or.inl ⟨⟨err, rfl⟩, h⟩, ?_, ?_⟩
    · simp [h, Execution.remoteCalls, Effect.isRemoteCall]
    · simp [h, StatusOK, StatusBadRequest]
  | ok v =>
    rw [hd] at h hp
    simp only at h hp
    refine ⟨Or.inr ⟨⟨v, rfl, hp, ?_, ?_⟩, h⟩, ?_, ?_⟩
    · intro x
      cases v <;> simp [Any.ofJson]
    · intro x
      cases v <;> simp [Any.ofJson]
    · simp [h, Execution.remoteCalls]
    · simp [h]

theorem HandleEvent_recognized_kind_never_dispatches_witness :
    HandleEvent exampleWorld acmeRequest = ⟨[], .panicked .interfaceConversion⟩ ∧
      (HandleEvent exampleWorld acmeRequest).remoteCalls = [] ∧
      Effect.WriteHeader StatusOK ∉ (HandleEvent exampleWorld acmeRequest).trace := by
  have h := HandleEvent_recognized_kind_never_dispatches exampleWorld acmeRequest acmeBody
    rfl (Or.inr rfl)
  exact ⟨rfl, h.2.1, h.2.2⟩

end AzureDevopsWebhookHandler
